import Mathlib

/-!
# simplerqms: the users endpoint and the database middleware

A shallow embedding of `golang/api/response.go`, `golang/api/users.go`,
`golang/db/middleware.go` and `golang/db/connection.go`.

The handlers are Go functions over `http.ResponseWriter`, `context.Context`
and a `pgx` row cursor.  Those three library objects are modelled by small
state records that follow their documented behaviour; the functions of the
repository are then translated statement by statement over them.
-/

namespace Simplerqms

/-! ## `net/http`: header map and response writer -/

/-- Model of `textproto.CanonicalMIMEHeaderKey` on a header name made of letters,
digits and hyphens: the first letter and every letter after a hyphen are
upper-cased, the others lower-cased. -/
def canonicalKeyAux : Bool → List Char → List Char
  | _, [] => []
  | upper, c :: cs =>
    (if upper then c.toUpper else c.toLower) :: canonicalKeyAux (c.toNat = 45) cs

/-- The canonical form of a header name, as the methods of `http.Header` use
it: `content-type` becomes `Content-Type`. -/
def canonicalKey (k : String) : String :=
  String.mk (canonicalKeyAux true k.data)

/-- Model of `http.Header`: the entries in insertion order, one pair for each value. -/
abbrev Header := List (String × String)

namespace Header

/-- Model of `Header.Add`: appends a value under the canonical key. -/
def Add (h : Header) (key value : String) : Header :=
  h ++ [(canonicalKey key, value)]

/-- Model of `Header.Del`: removes every value of the key. -/
def Del (h : Header) (key : String) : Header :=
  h.filter (fun kv => kv.1 != canonicalKey key)

/-- Model of `Header.Set`: replaces the values of the key by the single given one. -/
def Set (h : Header) (key value : String) : Header :=
  (Del h key) ++ [(canonicalKey key, value)]

/-- Model of `Header.Values`: all the values of the key. -/
def Values (h : Header) (key : String) : List String :=
  (h.filter (fun kv => kv.1 == canonicalKey key)).map (fun kv => kv.2)

end Header

/-- The `http.ResponseWriter` handed to a handler.

* `header` is the map returned by `w.Header()`, which the handler may edit at
  any time;
* `wroteHeader`, `status`, `sentHeader` record the first `WriteHeader`: the
  status line and the copy of the header map that goes out with it.  The
  documentation of `ResponseWriter.Header` says that changing the map after
  `WriteHeader` (or `Write`) has no effect on the response;
* `body` is everything passed to `Write`, in order. -/
structure ResponseWriter where
  header : Header
  wroteHeader : Bool
  status : Nat
  sentHeader : Header
  body : String
deriving DecidableEq, Repr

namespace ResponseWriter

/-- A writer on which nothing has been written yet. -/
def fresh : ResponseWriter :=
  { header := [], wroteHeader := false, status := 0, sentHeader := [], body := "" }

/-- Model of `w.WriteHeader(code)`: the first call commits the status together with the
header map as it is at that moment; a later call is ignored (the server logs
"superfluous response.WriteHeader call"). -/
def WriteHeader (w : ResponseWriter) (code : Nat) : ResponseWriter :=
  if w.wroteHeader then w
  else { w with wroteHeader := true, status := code, sentHeader := w.header }

/-- Model of `w.Write(b)`: commits status 200 if no status was committed, then appends
to the body. -/
def Write (w : ResponseWriter) (b : String) : ResponseWriter :=
  let w1 := if w.wroteHeader then w else w.WriteHeader 200
  { w1 with body := w1.body ++ b }

end ResponseWriter

/-- Model of `http.Error(w, error, code)`: sets the plain-text headers, writes the
status, then prints the message followed by a newline. -/
def http.Error (w : ResponseWriter) (error : String) (code : Nat) : ResponseWriter :=
  let h := w.header
  let h := Header.Del h "Content-Length"
  let h := Header.Set h "Content-Type" "text/plain; charset=utf-8"
  let h := Header.Set h "X-Content-Type-Options" "nosniff"
  let w := { w with header := h }
  let w := w.WriteHeader code
  w.Write (error ++ "\n")

/-! ## `context` and the values it carries -/

/-- A `*pgxpool.Pool` that points to a pool: an opaque handle, identified by
a number. -/
structure Pool where
  id : Nat
deriving DecidableEq, Repr

/-- Go values as they are stored in an interface, as far as this program can
meet them in a context: the dynamic type together with the value.

* `emptyStruct` is the one value of the unnamed type `struct{}`; that type is
  the same type in every package;
* `named pkg ty s` is a value of the defined type `ty` declared in package
  `pkg` (the usual shape of a context key);
* `pool p` is a `*pgxpool.Pool`. -/
inductive Value where
  | emptyStruct
  | str (s : String)
  | int (n : Int)
  | named (pkg ty s : String)
  | pool (p : Pool)
deriving DecidableEq, Repr

/-- A `context.Context`, as the chain of `context.WithValue` calls that built
it on top of the background context. -/
inductive Context where
  | background
  | withValue (parent : Context) (key val : Value)
deriving DecidableEq, Repr

/-- Model of `ctx.Value(key)`: the value of the innermost pair whose key is `==` to
`key` (same dynamic type, equal value), `none` standing for the nil
interface. -/
def Context.Value : Context → Value → Option Value
  | .background, _ => none
  | .withValue parent k v, key => if k = key then some v else parent.Value key

/-- Model of `http.Request`, reduced to the context it carries. -/
structure Request where
  ctx : Context
deriving DecidableEq, Repr

/-- Model of `r.Context()`. -/
def Request.Context (r : Request) : Context := r.ctx

/-- Model of `r.WithContext(ctx)`: a copy of the request with the context replaced.
`net/http` panics with "nil context" when `ctx` is nil; the panic is the
`Except.error` result. -/
def Request.WithContext (r : Request) (ctx : Option Simplerqms.Context) :
    Except String Request :=
  match ctx with
  | none => .error "nil context"
  | some c => .ok { r with ctx := c }

/-! ## `pgx`: query results -/

/-- Model of `time.Time`, seen through the two things `encoding/json` asks of it: the
year (`MarshalJSON` refuses years outside 0..9999) and the RFC 3339 text. -/
structure Time where
  year : Int
  rfc3339 : String
deriving DecidableEq, Repr

/-- Translation of `api.User` (users.go, lines 11-17). -/
structure User where
  ID : Int
  Name : String
  Email : String
  CreatedAt : Time
  UpdatedAt : Time
deriving DecidableEq, Repr

/-- One row waiting in a cursor, seen through `rows.Scan` into the five
fields of a `User`: either the decoded user or the scan error. -/
abbrev Row := Except String User

/-- Model of `pgx.Rows`: the rows still to be read, the error that `Err()` reports once
reading has stopped, and whether the cursor has been closed.  Only `Close`
sets `closed` here; `pgx` also closes a cursor by itself in some situations,
which this model does not rely on. -/
structure Rows where
  pending : List Row
  err : Option String
  closed : Bool
deriving Repr

/-- Model of `rows.Close()`. -/
def Rows.Close (rows : Rows) : Rows := { rows with closed := true }

/-- Model of `rows.Err()`. -/
def Rows.Err (rows : Rows) : Option String := rows.err

/-- The database behind the pools: what `pool.Query(ctx, sql)` answers. -/
abbrev Database := Pool → String → Except String Rows

/-! ## Handlers -/

/-- What a handler can touch: the response writer it was given, the queries
issued so far, and the cursors that handlers obtained, each in the state in
which the handler that obtained it left it on return. -/
structure World where
  w : ResponseWriter
  queries : List (Pool × String)
  cursors : List Rows
deriving Repr

/-- A world in which nothing has happened yet, with a fresh writer. -/
def World.fresh : World :=
  { w := ResponseWriter.fresh, queries := [], cursors := [] }

/-- How a handler call ends: it returns, or it panics. -/
inductive Outcome where
  | returned (s : World)
  | panicked (msg : String) (s : World)
deriving Repr

/-- The world at the end of a handler call. -/
def Outcome.world : Outcome → World
  | .returned s => s
  | .panicked _ s => s

/-- Model of `http.HandlerFunc`. -/
abbrev HandlerFunc := World → Request → Outcome

/-! ## `encoding/json` on a slice of users -/

/-- A Go slice value: the nil slice, or a slice with the given elements
(possibly none). -/
inductive Slice (α : Type) where
  | nil
  | elems (xs : List α)
deriving DecidableEq, Repr

/-- The built-in `append(s, x)`: appending to the nil slice gives a non-nil
slice. -/
def Slice.append {α : Type} : Slice α → α → Slice α
  | .nil, x => .elems [x]
  | .elems xs, x => .elems (xs ++ [x])

/-- The elements of a slice; the nil slice has none. -/
def Slice.toList {α : Type} : Slice α → List α
  | .nil => []
  | .elems xs => xs

namespace json

/-- How `encoding/json` writes one character of a string (HTML escaping on,
as `json.Marshal` has it): the quote and the backslash get a backslash,
backspace, form feed, newline, carriage return and tab their letter, the other
control characters and `<`, `>`, `&` a `\u00xx` escape, the line and paragraph
separators ` ` and ` `. -/
def escapeChar (c : Char) : List Char :=
  let n := c.toNat
  if n = 34 then [Char.ofNat 92, Char.ofNat 34]
  else if n = 92 then [Char.ofNat 92, Char.ofNat 92]
  else if n = 8 then [Char.ofNat 92, 'b']
  else if n = 12 then [Char.ofNat 92, 'f']
  else if n = 10 then [Char.ofNat 92, 'n']
  else if n = 13 then [Char.ofNat 92, 'r']
  else if n = 9 then [Char.ofNat 92, 't']
  else if n < 32 ∨ n = 60 ∨ n = 62 ∨ n = 38 then
    [Char.ofNat 92, 'u', '0', '0', Nat.digitChar (n / 16), Nat.digitChar (n % 16)]
  else if n = 8232 then [Char.ofNat 92, 'u', '2', '0', '2', '8']
  else if n = 8233 then [Char.ofNat 92, 'u', '2', '0', '2', '9']
  else [c]

/-- A Go string as a JSON string literal. -/
def quote (s : String) : String :=
  "\"" ++ String.mk (s.data.map escapeChar).flatten ++ "\""

/-- Model of `Time.MarshalJSON`: the quoted RFC 3339 text; an error for a year outside
0..9999, which `json.Marshal` reports with its own wrapping. -/
def marshalTime (t : Time) : Except String String :=
  if t.year < 0 ∨ t.year ≥ 10000 then
    .error ("json: error calling MarshalJSON for type time.Time: " ++
      "Time.MarshalJSON: year outside of range [0,9999]")
  else .ok ("\"" ++ t.rfc3339 ++ "\"")

/-- The JSON object of a user whose two timestamps are already encoded: the
five fields in declaration order under the names of their `json` tags. -/
def userObject (u : User) (createdAt updatedAt : String) : String :=
  "\x7b\"id\":" ++ toString u.ID ++ ",\"name\":" ++ quote u.Name ++
    ",\"email\":" ++ quote u.Email ++ ",\"created_at\":" ++ createdAt ++
    ",\"updated_at\":" ++ updatedAt ++ "\x7d"

/-- Model of `json.Marshal` on a `User`. -/
def marshalUser (u : User) : Except String String :=
  match marshalTime u.CreatedAt with
  | .error e => .error e
  | .ok c =>
    match marshalTime u.UpdatedAt with
    | .error e => .error e
    | .ok m => .ok (userObject u c m)

/-- The elements of a slice encoded in order; the first error stops it. -/
def marshalUsers : List User → Except String (List String)
  | [] => .ok []
  | u :: us =>
    match marshalUser u with
    | .error e => .error e
    | .ok j =>
      match marshalUsers us with
      | .error e => .error e
      | .ok js => .ok (j :: js)

/-- Model of `json.Marshal` on a `[]User`: the nil slice is encoded as `null`, any
other slice as a JSON array of its elements. -/
def Marshal : Slice User → Except String String
  | .nil => .ok "null"
  | .elems us =>
    match marshalUsers us with
    | .error e => .error e
    | .ok js => .ok ("[" ++ ",".intercalate js ++ "]")

end json

/-! ## `golang/api/response.go` -/

/-- Translation of `WriteResponse` (response.go, lines 10-21), on the `[]User` that its only
caller passes. -/
def WriteResponse (w : ResponseWriter) (response : Slice User) : ResponseWriter :=
  match json.Marshal response with
  | .error err =>
    let w := w.WriteHeader 500
    w.Write ("failed to marshall response: " ++ err)
  | .ok responseJSON =>
    let w := w.WriteHeader 200
    let w := { w with header := Header.Add w.header "content-type" "application/json" }
    w.Write responseJSON

/-! ## `golang/db/connection.go` and `golang/db/middleware.go` -/

/-- Model of `DatabaseConnectionProvider`: the one method `GetConnectionPool(ctx)`,
answering a pool or an error. -/
abbrev DatabaseConnectionProvider := Context → Except String Pool

/-- Translation of `connectionProvider` (connection.go, lines 15-17). -/
structure connectionProvider where
  pool : Pool

/-- Translation of `(*connectionProvider).GetConnectionPool` (connection.go, lines 31-33). -/
def connectionProvider.GetConnectionPool (cp : connectionProvider) :
    DatabaseConnectionProvider :=
  fun _ => .ok cp.pool

/-- Translation of `var database struct{}` (middleware.go, line 11): the context key. -/
def database : Value := Value.emptyStruct

/-- Translation of `WithDatabaseConnection` (middleware.go, lines 23-30).  The Go function
returns a pair: the nil context with the error, or the derived context with
no error. -/
def WithDatabaseConnection (ctx : Context) (connProvider : DatabaseConnectionProvider) :
    Option Context × Option String :=
  match connProvider ctx with
  | .error err => (none, some err)
  | .ok dbPool => (some (Context.withValue ctx database (Value.pool dbPool)), none)

/-- Translation of `GetConnection` (middleware.go, lines 32-38): the type assertion succeeds
exactly on a `*pgxpool.Pool`. -/
def GetConnection (ctx : Context) : Except String Pool :=
  match ctx.Value database with
  | some (Value.pool pool) => .ok pool
  | _ => .error "failed to get connection pool"

/-- Translation of `DatabaseMiddleware` (middleware.go, lines 13-21).  There is no `return`
in the error branch, so line 19 is reached in both cases; its argument
`r.WithContext(ctx)` is evaluated before `next` is called. -/
def DatabaseMiddleware (connProvider : DatabaseConnectionProvider) (next : HandlerFunc) :
    HandlerFunc :=
  fun s r =>
    let (ctx, err) := WithDatabaseConnection r.Context connProvider
    let s := match err with
      | some e => { s with w := http.Error s.w e 500 }
      | none => s
    match r.WithContext ctx with
    | .error p => .panicked p s
    | .ok r2 => next s r2

/-! ## `golang/api/users.go` -/

/-- The loop of lines 36-43.  `rows.Next()` is true while a row is pending and
makes it the current one; `rows.Scan` decodes the current row.  The result is
the rows left unread together with the accumulated slice, or `none` when a
scan failed (the `return` of line 40). -/
def scanRows : List Row → Slice User → List Row × Option (Slice User)
  | [], items => ([], some items)
  | .error _ :: rest, _ => (rest, none)
  | .ok i :: rest, items => scanRows rest (items.append i)

/-- The text of the query of line 29. -/
def usersQuery : String := "SELECT * FROM users"

/-- Translation of `ListUsers` (users.go, lines 19-49).  `defer rows.Close()`
(line 34) runs at each of the two returns that follow it; the cursor is then
recorded in the world as the handler leaves it.  The `log.Println` of line 21
writes to the process log only and is left out. -/
def ListUsers (db : Database) : HandlerFunc :=
  fun s r =>
    let ctx := r.Context
    match GetConnection ctx with
    | .error _ =>
      .returned { s with
        w := http.Error s.w "Could not establish a connection to the database" 500 }
    | .ok conn =>
      let s := { s with queries := s.queries ++ [(conn, usersQuery)] }
      match db conn usersQuery with
      | .error _ =>
        .returned { s with
          w := http.Error s.w "Could not retrieve list of users from the db" 500 }
      | .ok rows =>
        match scanRows rows.pending Slice.nil with
        | (rest, none) =>
          let rows := { rows with pending := rest }
          let w := http.Error s.w "Could not retrieve list of users from the db" 500
          .returned { s with w := w, cursors := s.cursors ++ [rows.Close] }
        | (rest, some items) =>
          let rows := { rows with pending := rest }
          let w := match rows.Err with
            | some _ => http.Error s.w "Error parsing the users" 500
            | none => s.w
          let w := WriteResponse w items
          .returned { s with w := w, cursors := s.cursors ++ [rows.Close] }

/-- Translation of `registerEndpoint` (server.go, lines 13-17): the handler that the router
gets for a path. -/
def registerEndpoint (handler : HandlerFunc) (dbConnProvider : DatabaseConnectionProvider) :
    HandlerFunc :=
  DatabaseMiddleware dbConnProvider handler

/-- The users that the rows of a cursor decode to, in order, as the slice that
repeated `append` builds from the nil slice. -/
def decodedUsers (pending : List Row) : Slice User :=
  (pending.filterMap Except.toOption).foldl Slice.append Slice.nil

/-- The five steps of a request all succeed: connection lookup, the query,
every row decode, the final cursor check, and JSON serialization of the
decoded users. -/
def allStepsSucceed (db : Database) (r : Request) : Bool :=
  match GetConnection r.Context with
  | .error _ => false
  | .ok conn =>
    match db conn usersQuery with
    | .error _ => false
    | .ok rows =>
      rows.pending.all Except.isOk && rows.Err.isNone &&
        (json.Marshal (decodedUsers rows.pending)).isOk

/-- The JSON object that a user is encoded to when both timestamps can be
encoded: the five fields of the row, the timestamps as quoted RFC 3339 text. -/
def userText (u : User) : String :=
  json.userObject u ("\"" ++ u.CreatedAt.rfc3339 ++ "\"") ("\"" ++ u.UpdatedAt.rfc3339 ++ "\"")

/-! ## Sample data -/

/-- The row of the scenario of the specification: `(1, "Ada", "ada@example.com", t1, t1)`. -/
def ada : User :=
  { ID := 1, Name := "Ada", Email := "ada@example.com",
    CreatedAt := { year := 2024, rfc3339 := "t1" },
    UpdatedAt := { year := 2024, rfc3339 := "t1" } }

/-- A user whose creation time lies in the year 10000, which a PostgreSQL
timestamp can hold. -/
def farFuture : User :=
  { ID := 2, Name := "Bo", Email := "bo@example.com",
    CreatedAt := { year := 10000, rfc3339 := "10000-01-01T00:00:00Z" },
    UpdatedAt := { year := 2024, rfc3339 := "t1" } }

/-- A request that went through the middleware with pool number 7. -/
def wired : Request :=
  { ctx := Context.withValue Context.background database (Value.pool { id := 7 }) }

/-- A request that did not go through the middleware. -/
def unwired : Request := { ctx := Context.background }

/-- A request whose context carries a string under the key of the pool. -/
def miswired : Request :=
  { ctx := Context.withValue Context.background database (Value.str "pool") }

/-- A database whose query answers the given rows and final cursor error. -/
def dbWith (pending : List Row) (err : Option String) : Database :=
  fun _ _ => .ok { pending := pending, err := err, closed := false }

/-- A database whose query fails. -/
def dbDown : Database := fun _ _ => .error "connection refused"

/-- A provider that cannot reach its pool. -/
def failingProvider : DatabaseConnectionProvider := fun _ => .error "pool unavailable"


/-! ## Lemmas on the library model -/

theorem WriteHeader_first (w : ResponseWriter) (code : Nat) (h : w.wroteHeader = false) :
    w.WriteHeader code =
      { w with wroteHeader := true, status := code, sentHeader := w.header } := by
  simp [ResponseWriter.WriteHeader, h]

theorem WriteHeader_later (w : ResponseWriter) (code : Nat) (h : w.wroteHeader = true) :
    w.WriteHeader code = w := by
  simp [ResponseWriter.WriteHeader, h]

theorem Write_wroteHeader (w : ResponseWriter) (b : String) :
    (w.Write b).wroteHeader = true := by
  unfold ResponseWriter.Write ResponseWriter.WriteHeader
  cases h : w.wroteHeader <;> simp [h]

theorem Write_status_later (w : ResponseWriter) (b : String) (h : w.wroteHeader = true) :
    (w.Write b).status = w.status := by
  simp [ResponseWriter.Write, h]

theorem Write_body (w : ResponseWriter) (b : String) :
    (w.Write b).body = w.body ++ b := by
  unfold ResponseWriter.Write ResponseWriter.WriteHeader
  cases h : w.wroteHeader <;> simp [h]

theorem Error_wroteHeader (w : ResponseWriter) (msg : String) (code : Nat) :
    (http.Error w msg code).wroteHeader = true := by
  unfold http.Error
  exact Write_wroteHeader _ _

theorem Error_status (w : ResponseWriter) (msg : String) (code : Nat)
    (h : w.wroteHeader = false) : (http.Error w msg code).status = code := by
  simp [http.Error, ResponseWriter.Write, ResponseWriter.WriteHeader, h]

theorem Error_body (w : ResponseWriter) (msg : String) (code : Nat) :
    (http.Error w msg code).body = w.body ++ (msg ++ "\n") := by
  unfold http.Error
  rw [Write_body]
  unfold ResponseWriter.WriteHeader
  cases h : w.wroteHeader <;> simp [h]

theorem WriteResponse_wroteHeader (w : ResponseWriter) (items : Slice User) :
    (WriteResponse w items).wroteHeader = true := by
  unfold WriteResponse
  cases json.Marshal items <;> exact Write_wroteHeader _ _

theorem WriteResponse_status_later (w : ResponseWriter) (items : Slice User)
    (h : w.wroteHeader = true) : (WriteResponse w items).status = w.status := by
  unfold WriteResponse
  cases json.Marshal items <;>
    simp [ResponseWriter.Write, ResponseWriter.WriteHeader, h]

theorem WriteResponse_status_first (w : ResponseWriter) (items : Slice User)
    (h : w.wroteHeader = false) :
    (WriteResponse w items).status = if (json.Marshal items).isOk then 200 else 500 := by
  unfold WriteResponse
  cases json.Marshal items <;>
    simp [ResponseWriter.Write, ResponseWriter.WriteHeader, h, Except.isOk, Except.toBool]

/-! ## Lemmas on the row loop -/

theorem scanRows_all_ok (l : List Row) (items : Slice User)
    (h : l.all Except.isOk = true) :
    scanRows l items =
      ([], some ((l.filterMap Except.toOption).foldl Slice.append items)) := by
  induction l generalizing items with
  | nil => rfl
  | cons x xs ih =>
    cases x with
    | error e => simp [Except.isOk, Except.toBool] at h
    | ok u =>
      have hxs : xs.all Except.isOk = true := by
        simp only [List.all_cons, Bool.and_eq_true] at h
        exact h.2
      simp [scanRows, ih _ hxs, Except.toOption]

theorem scanRows_some_error (l : List Row) (items : Slice User)
    (h : l.all Except.isOk = false) : (scanRows l items).2 = none := by
  induction l generalizing items with
  | nil => simp at h
  | cons x xs ih =>
    cases x with
    | error e => rfl
    | ok u =>
      have hxs : xs.all Except.isOk = false := by
        simpa [Except.isOk, Except.toBool] using h
      simpa [scanRows] using ih _ hxs


/-! ## The paths through `ListUsers` -/

theorem ListUsers_no_connection (db : Database) (s : World) (r : Request) (e : String)
    (hc : GetConnection r.Context = .error e) :
    ListUsers db s r = Outcome.returned { s with
      w := http.Error s.w "Could not establish a connection to the database" 500 } := by
  simp only [ListUsers, hc]

theorem ListUsers_query_failed (db : Database) (s : World) (r : Request) (conn : Pool)
    (e : String) (hc : GetConnection r.Context = .ok conn)
    (hq : db conn usersQuery = .error e) :
    ListUsers db s r = Outcome.returned
      { w := http.Error s.w "Could not retrieve list of users from the db" 500,
        queries := s.queries ++ [(conn, usersQuery)],
        cursors := s.cursors } := by
  simp only [ListUsers, hc, hq]

theorem ListUsers_scan_failed (db : Database) (s : World) (r : Request) (conn : Pool)
    (rows : Rows) (rest : List Row) (hc : GetConnection r.Context = .ok conn)
    (hq : db conn usersQuery = .ok rows)
    (hs : scanRows rows.pending Slice.nil = (rest, none)) :
    ListUsers db s r = Outcome.returned
      { w := http.Error s.w "Could not retrieve list of users from the db" 500,
        queries := s.queries ++ [(conn, usersQuery)],
        cursors := s.cursors ++ [Rows.Close { rows with pending := rest }] } := by
  simp only [ListUsers, hc, hq, hs]

theorem ListUsers_scanned (db : Database) (s : World) (r : Request) (conn : Pool)
    (rows : Rows) (rest : List Row) (items : Slice User)
    (hc : GetConnection r.Context = .ok conn)
    (hq : db conn usersQuery = .ok rows)
    (hs : scanRows rows.pending Slice.nil = (rest, some items)) :
    ListUsers db s r = Outcome.returned
      { w := WriteResponse
          (match rows.err with
            | some _ => http.Error s.w "Error parsing the users" 500
            | none => s.w) items,
        queries := s.queries ++ [(conn, usersQuery)],
        cursors := s.cursors ++ [Rows.Close { rows with pending := rest }] } := by
  simp only [ListUsers, hc, hq, hs, Rows.Err]

/-! ## The status code of `ListUsers` -/

/-- C7: on a writer on which no status has been written, `ListUsers` returns
with status 200 when connection lookup, the query, every row decode, the
final cursor check and JSON serialization all succeed, and with status 500
when any one of them fails; there is no third status. -/
theorem ListUsers_status (db : Database) (s : World) (r : Request)
    (h : s.w.wroteHeader = false) :
    ∃ s1, ListUsers db s r = Outcome.returned s1 ∧ s1.w.wroteHeader = true ∧
      s1.w.status = (if allStepsSucceed db r then 200 else 500) := by
  cases hc : GetConnection r.Context with
  | error e =>
    refine ⟨_, ListUsers_no_connection db s r e hc, Error_wroteHeader _ _ _, ?_⟩
    simp [allStepsSucceed, hc, Error_status _ _ _ h]
  | ok conn =>
    cases hq : db conn usersQuery with
    | error e =>
      refine ⟨_, ListUsers_query_failed db s r conn e hc hq, Error_wroteHeader _ _ _, ?_⟩
      simp [allStepsSucceed, hc, hq, Error_status _ _ _ h]
    | ok rows =>
      cases hall : rows.pending.all Except.isOk with
      | false =>
        have h2 := scanRows_some_error rows.pending Slice.nil hall
        cases hs : scanRows rows.pending Slice.nil with
        | mk rest res =>
          rw [hs] at h2
          simp only at h2
          subst h2
          refine ⟨_, ListUsers_scan_failed db s r conn rows rest hc hq hs,
            Error_wroteHeader _ _ _, ?_⟩
          simp [allStepsSucceed, hc, hq, hall, Error_status _ _ _ h]
      | true =>
        have hs := scanRows_all_ok rows.pending Slice.nil hall
        refine ⟨_, ListUsers_scanned db s r conn rows [] _ hc hq hs,
          WriteResponse_wroteHeader _ _, ?_⟩
        cases he : rows.err with
        | some e =>
          simp only []
          rw [WriteResponse_status_later _ _ (Error_wroteHeader _ _ _)]
          simp [allStepsSucceed, hc, hq, hall, Rows.Err, he, Error_status _ _ _ h]
        | none =>
          simp only []
          rw [WriteResponse_status_first _ _ h]
          simp [allStepsSucceed, hc, hq, hall, Rows.Err, he, decodedUsers]

/-- C7, at a request wired to a pool whose query answers one good row. -/
theorem ListUsers_status_witness :
    (World.fresh).w.wroteHeader = false ∧
    ∃ s1, ListUsers (dbWith [.ok ada] none) World.fresh wired = Outcome.returned s1 ∧
      s1.w.wroteHeader = true ∧
      s1.w.status = (if allStepsSucceed (dbWith [.ok ada] none) wired then 200 else 500) :=
  ⟨rfl, ListUsers_status (dbWith [.ok ada] none) World.fresh wired rfl⟩


/-! ## Requests without a pool -/

/-- C6: when the context of the request has no pool under the key (nothing
there, or a value of another type), `GetConnection` fails and `ListUsers`, on
a writer with no status yet, answers 500 with the line "Could not establish a
connection to the database" and returns without issuing a query or opening a
cursor. -/
theorem ListUsers_without_pool (db : Database) (s : World) (r : Request)
    (h : s.w.wroteHeader = false)
    (hctx : ∀ p : Pool, r.Context.Value database ≠ some (Value.pool p)) :
    GetConnection r.Context = .error "failed to get connection pool" ∧
    ∃ s1, ListUsers db s r = Outcome.returned s1 ∧
      s1.w.status = 500 ∧
      s1.w.body = s.w.body ++ "Could not establish a connection to the database\n" ∧
      s1.queries = s.queries ∧ s1.cursors = s.cursors := by
  have hc : GetConnection r.Context = .error "failed to get connection pool" := by
    unfold GetConnection
    cases hv : r.Context.Value database with
    | none => rfl
    | some v =>
      cases v with
      | pool p => exact absurd hv (hctx p)
      | emptyStruct => rfl
      | str x => rfl
      | int n => rfl
      | named a b c => rfl
  refine ⟨hc, _, ListUsers_no_connection db s r _ hc, Error_status _ _ _ h, ?_, rfl, rfl⟩
  exact Error_body _ _ _

/-- C6, at a request that carries nothing under the key and at one that
carries a string there. -/
theorem ListUsers_without_pool_witness :
    (GetConnection unwired.Context = .error "failed to get connection pool" ∧
      ∃ s1, ListUsers (dbWith [.ok ada] none) World.fresh unwired = Outcome.returned s1 ∧
        s1.w.status = 500 ∧
        s1.w.body = World.fresh.w.body ++ "Could not establish a connection to the database\n" ∧
        s1.queries = World.fresh.queries ∧ s1.cursors = World.fresh.cursors) ∧
    (GetConnection miswired.Context = .error "failed to get connection pool" ∧
      ∃ s1, ListUsers (dbWith [.ok ada] none) World.fresh miswired = Outcome.returned s1 ∧
        s1.w.status = 500 ∧
        s1.w.body = World.fresh.w.body ++ "Could not establish a connection to the database\n" ∧
        s1.queries = World.fresh.queries ∧ s1.cursors = World.fresh.cursors) :=
  ⟨ListUsers_without_pool (dbWith [.ok ada] none) World.fresh unwired rfl
      (by intro p hp; simp [unwired, Request.Context, Context.Value] at hp),
    ListUsers_without_pool (dbWith [.ok ada] none) World.fresh miswired rfl
      (by intro p hp; simp [miswired, Request.Context, Context.Value] at hp)⟩

/-! ## The cursor -/

/-- C10: when the query of `ListUsers` succeeds, the handler returns and the
cursor it obtained is closed at that point, whatever the rows hold: all
decoded, one failing to decode, or an error reported after the last row.  No
other cursor is opened. -/
theorem ListUsers_closes_cursor (db : Database) (s : World) (r : Request) (conn : Pool)
    (rows : Rows) (hc : GetConnection r.Context = .ok conn)
    (hq : db conn usersQuery = .ok rows) :
    ∃ s1 c, ListUsers db s r = Outcome.returned s1 ∧
      s1.cursors = s.cursors ++ [c] ∧ c.closed = true ∧ c.err = rows.err := by
  cases hs : scanRows rows.pending Slice.nil with
  | mk rest res =>
    cases res with
    | none =>
      exact ⟨_, _, ListUsers_scan_failed db s r conn rows rest hc hq hs, rfl, rfl, rfl⟩
    | some items =>
      exact ⟨_, _, ListUsers_scanned db s r conn rows rest items hc hq hs, rfl, rfl, rfl⟩

/-- C10, on a cursor whose second row fails to decode and which reports an
error as well. -/
theorem ListUsers_closes_cursor_witness :
    ∃ s1 c, ListUsers (dbWith [.ok ada, .error "bad column", .ok ada] (some "reset"))
        World.fresh wired = Outcome.returned s1 ∧
      s1.cursors = World.fresh.cursors ++ [c] ∧ c.closed = true ∧
      c.err = (some "reset") :=
  ListUsers_closes_cursor (dbWith [.ok ada, .error "bad column", .ok ada] (some "reset"))
    World.fresh wired { id := 7 }
    { pending := [.ok ada, .error "bad column", .ok ada], err := some "reset", closed := false }
    rfl rfl

/-! ## The middleware with a working provider -/

/-- C5: when the provider answers a pool `P` for the context of the request,
the handler built by `DatabaseMiddleware` does exactly what one call of `next`
does on the untouched world with the request whose context is the incoming
one extended by the pool, and `GetConnection` on that context answers `P`;
that context is the one `WithDatabaseConnection` returns. -/
theorem DatabaseMiddleware_passes_pool (connProvider : DatabaseConnectionProvider)
    (next : HandlerFunc) (s : World) (r : Request) (P : Pool)
    (h : connProvider r.Context = .ok P) :
    ∃ c, WithDatabaseConnection r.Context connProvider = (some c, none) ∧
      DatabaseMiddleware connProvider next s r = next s { r with ctx := c } ∧
      GetConnection c = .ok P := by
  refine ⟨Context.withValue r.Context database (Value.pool P), ?_, ?_, ?_⟩
  · simp only [WithDatabaseConnection, h]
  · simp only [DatabaseMiddleware, WithDatabaseConnection, h, Request.WithContext]
  · simp [GetConnection, Context.Value]

/-- C5, with the provider of `connection.go` holding pool 7 and `ListUsers` as
the next handler. -/
theorem DatabaseMiddleware_passes_pool_witness :
    ∃ c, WithDatabaseConnection unwired.Context
        (connectionProvider.GetConnectionPool { pool := { id := 7 } }) = (some c, none) ∧
      DatabaseMiddleware (connectionProvider.GetConnectionPool { pool := { id := 7 } })
        (ListUsers (dbWith [.ok ada] none)) World.fresh unwired =
        ListUsers (dbWith [.ok ada] none) World.fresh { unwired with ctx := c } ∧
      GetConnection c = .ok { id := 7 } :=
  DatabaseMiddleware_passes_pool (connectionProvider.GetConnectionPool { pool := { id := 7 } })
    (ListUsers (dbWith [.ok ada] none)) World.fresh unwired { id := 7 } rfl


/-! ## The array of users -/

theorem marshalTime_ok (t : Time) (j : String) (h : json.marshalTime t = .ok j) :
    j = "\"" ++ t.rfc3339 ++ "\"" := by
  unfold json.marshalTime at h
  split at h
  · cases h
  · injection h with h
    exact h.symm

theorem marshalUser_ok (u : User) (j : String) (h : json.marshalUser u = .ok j) :
    j = userText u := by
  unfold json.marshalUser at h
  cases hc : json.marshalTime u.CreatedAt with
  | error e => simp [hc] at h
  | ok c =>
    cases hm : json.marshalTime u.UpdatedAt with
    | error e => simp [hc, hm] at h
    | ok m =>
      simp only [hc, hm] at h
      injection h with h
      rw [← h, marshalTime_ok _ _ hc, marshalTime_ok _ _ hm]
      rfl

theorem marshalUsers_ok (us : List User) (js : List String)
    (h : json.marshalUsers us = .ok js) : js = us.map userText := by
  induction us generalizing js with
  | nil =>
    simp only [json.marshalUsers] at h
    injection h with h
    simp [← h]
  | cons u us ih =>
    unfold json.marshalUsers at h
    cases hu : json.marshalUser u with
    | error e => simp [hu] at h
    | ok j =>
      cases hr : json.marshalUsers us with
      | error e => simp [hu, hr] at h
      | ok rest =>
        simp only [hu, hr] at h
        injection h with h
        rw [← h, marshalUser_ok u j hu, ih rest hr]
        rfl

theorem scanRows_decoded (us : List User) (xs : List User) :
    scanRows (us.map Except.ok) (Slice.elems xs) = ([], some (Slice.elems (xs ++ us))) := by
  induction us generalizing xs with
  | nil => simp [scanRows]
  | cons u us ih => simp [scanRows, Slice.append, ih]

theorem scanRows_decoded_nonempty (us : List User) (hne : us ≠ []) :
    scanRows (us.map Except.ok) Slice.nil = ([], some (Slice.elems us)) := by
  cases us with
  | nil => exact absurd rfl hne
  | cons u us => simp [scanRows, Slice.append, scanRows_decoded]

/-- C4, amended: when the query answers at least one row, every row decodes,
the cursor reports no error and the decoded users serialize without error,
`ListUsers` (on a writer with no status yet) answers 200 with a body that is
a JSON array with one element for each row, in the order of the cursor, the
element of row `i` being the object made of the id, name, email, created_at
and updated_at of that row. -/
theorem ListUsers_array (db : Database) (s : World) (r : Request) (conn : Pool)
    (rows : Rows) (users : List User) (text : String)
    (h : s.w.wroteHeader = false)
    (hc : GetConnection r.Context = .ok conn)
    (hq : db conn usersQuery = .ok rows)
    (hrows : rows.pending = users.map Except.ok)
    (hne : users ≠ [])
    (herr : rows.err = none)
    (hjson : json.Marshal (Slice.elems users) = .ok text) :
    ∃ s1 elements, ListUsers db s r = Outcome.returned s1 ∧
      s1.w.status = 200 ∧
      s1.w.body = s.w.body ++ text ∧
      text = "[" ++ ",".intercalate elements ++ "]" ∧
      elements.length = users.length ∧
      ∀ (i : Nat) (hi : i < users.length),
        elements[i]? = some (userText (users.get ⟨i, hi⟩)) := by
  have hs : scanRows rows.pending Slice.nil = ([], some (Slice.elems users)) := by
    rw [hrows]
    exact scanRows_decoded_nonempty users hne
  have hm : json.marshalUsers users = .ok (users.map userText) := by
    unfold json.Marshal at hjson
    cases hu : json.marshalUsers users with
    | error e => simp [hu] at hjson
    | ok js => rw [marshalUsers_ok users js hu]
  have ht : text = "[" ++ ",".intercalate (users.map userText) ++ "]" := by
    simp only [json.Marshal, hm] at hjson
    injection hjson with hjson
    exact hjson.symm
  refine ⟨_, users.map userText, ListUsers_scanned db s r conn rows [] _ hc hq hs,
    ?_, ?_, ht, ?_, ?_⟩
  · simp only [herr]
    rw [WriteResponse_status_first _ _ h]
    simp [json.Marshal, hm, Except.isOk, Except.toBool]
  · simp only [herr, WriteResponse, json.Marshal, hm]
    rw [Write_body, ht]
    simp [ResponseWriter.WriteHeader, h]
  · simp
  · intro i hi
    simp [List.getElem?_map, List.getElem?_eq_getElem hi]

/-- C4 amended, on the one-row table of the scenario. -/
theorem ListUsers_array_witness :
    ∃ s1 elements, ListUsers (dbWith [.ok ada] none) World.fresh wired = Outcome.returned s1 ∧
      s1.w.status = 200 ∧
      s1.w.body = World.fresh.w.body ++
        "[\x7b\"id\":1,\"name\":\"Ada\",\"email\":\"ada@example.com\",\"created_at\":\"t1\",\"updated_at\":\"t1\"\x7d]" ∧
      "[\x7b\"id\":1,\"name\":\"Ada\",\"email\":\"ada@example.com\",\"created_at\":\"t1\",\"updated_at\":\"t1\"\x7d]" =
        "[" ++ ",".intercalate elements ++ "]" ∧
      elements.length = [ada].length ∧
      ∀ (i : Nat) (hi : i < [ada].length),
        elements[i]? = some (userText ([ada].get ⟨i, hi⟩)) :=
  ListUsers_array (dbWith [.ok ada] none) World.fresh wired { id := 7 }
    { pending := [.ok ada], err := none, closed := false } [ada]
    "[\x7b\"id\":1,\"name\":\"Ada\",\"email\":\"ada@example.com\",\"created_at\":\"t1\",\"updated_at\":\"t1\"\x7d]"
    rfl rfl rfl rfl (by decide) rfl rfl

/-- C4 as stated fails: a single row that decodes, with no cursor error but a
creation time in the year 10000, gets a 500 with the text of the
serialization error; and no row at all gets the body `null`, which is not an
array. -/
theorem ListUsers_array_counterexample :
    (ListUsers (dbWith [.ok farFuture] none) World.fresh wired).world.w.status = 500 ∧
    (ListUsers (dbWith [.ok farFuture] none) World.fresh wired).world.w.body =
      "failed to marshall response: json: error calling MarshalJSON for type time.Time: Time.MarshalJSON: year outside of range [0,9999]" ∧
    (ListUsers (dbWith [] none) World.fresh wired).world.w.body = "null" :=
  ⟨rfl, rfl, rfl⟩


/-! ## Evaluations at the inputs where the code departs from its contract -/

/-- C1: with one good row and then an error reported by the cursor,
`ListUsers` writes the 500 line "Error parsing the users" and then goes on to
`WriteResponse`, which appends the JSON of the users read so far to the same
body. -/
theorem ListUsers_cursor_error_appends_json :
    (ListUsers (dbWith [.ok ada] (some "connection reset")) World.fresh wired).world.w.status
      = 500 ∧
    (ListUsers (dbWith [.ok ada] (some "connection reset")) World.fresh wired).world.w.body
      = "Error parsing the users\n[\x7b\"id\":1,\"name\":\"Ada\",\"email\":\"ada@example.com\",\"created_at\":\"t1\",\"updated_at\":\"t1\"\x7d]" :=
  ⟨rfl, rfl⟩

/-- C2: with a query that answers no row and no error, `ListUsers` answers
200 with the body `null`: the slice it serializes is still the nil slice. -/
theorem ListUsers_empty_table_null :
    (ListUsers (dbWith [] none) World.fresh wired).world.w.status = 200 ∧
    (ListUsers (dbWith [] none) World.fresh wired).world.w.body = "null" ∧
    (ListUsers (dbWith [] none) World.fresh wired).world.w.body ≠ "[]" :=
  ⟨rfl, rfl, by decide⟩

/-- C3: with a provider that fails, the handler built by `DatabaseMiddleware`
writes the 500 line and does not return: it goes on to line 19, whose
argument `r.WithContext(nil)` panics before `next` is entered.  This is so
for every error text, next handler, world and request; the second part is
the run with `ListUsers` as next handler on a fresh writer. -/
theorem DatabaseMiddleware_failing_provider_panics :
    (∀ (e : String) (next : HandlerFunc) (s : World) (r : Request),
      DatabaseMiddleware (fun _ => .error e) next s r =
        Outcome.panicked "nil context" { s with w := http.Error s.w e 500 }) ∧
    DatabaseMiddleware failingProvider (ListUsers (dbWith [.ok ada] none)) World.fresh unwired =
      Outcome.panicked "nil context"
        { World.fresh with w := http.Error ResponseWriter.fresh "pool unavailable" 500 } ∧
    (http.Error ResponseWriter.fresh "pool unavailable" 500).status = 500 ∧
    (http.Error ResponseWriter.fresh "pool unavailable" 500).body = "pool unavailable\n" :=
  ⟨fun _ _ _ _ => rfl, rfl, rfl, rfl⟩

/-- C8: on a fresh writer `WriteResponse` commits status 200 with the header
map as it is before `content-type` is added: the header sent has no
`Content-Type` value, the one added afterwards stays in the map of the
handler.  The same holds for the response of `ListUsers` on one good row. -/
theorem WriteResponse_content_type_after_status :
    (WriteResponse ResponseWriter.fresh (Slice.elems [ada])).status = 200 ∧
    (WriteResponse ResponseWriter.fresh (Slice.elems [ada])).sentHeader = [] ∧
    Header.Values (WriteResponse ResponseWriter.fresh (Slice.elems [ada])).header
      "content-type" = ["application/json"] ∧
    (ListUsers (dbWith [.ok ada] none) World.fresh wired).world.w.status = 200 ∧
    Header.Values (ListUsers (dbWith [.ok ada] none) World.fresh wired).world.w.sentHeader
      "content-type" = [] :=
  ⟨rfl, rfl, by decide, rfl, rfl⟩

/-- C9: the key of the pool is the value `struct{}{}` of the unnamed empty
struct type, which any package can write.  A context that carries pool 7,
extended with a string under `struct{}{}`, no longer yields the pool. -/
theorem GetConnection_key_collides :
    GetConnection wired.Context = .ok { id := 7 } ∧
    GetConnection (Context.withValue wired.Context Value.emptyStruct (Value.str "x")) =
      .error "failed to get connection pool" :=
  ⟨rfl, rfl⟩

end Simplerqms
